import Mathlib

/-!
Verification development for the dual-store recommendation core
(`backend/app/services`): hybrid rank fusion, cluster discovery over the
relationship graph, feedback reinforcement, and the cross-store ingestion
saga.

Conventions of the shallow embedding:
* Python floats are modeled as exact rationals.
* The two external stores (Qdrant vector index, Neo4j graph) are modeled as
  explicit state; each network call takes a Boolean outcome parameter (the
  source wraps every call in try/except and converts exceptions into a
  Boolean result).  A call that fails leaves the state unchanged.
* Python `sorted(..., key=k, reverse=True)` is a stable descending sort by
  key; `List.insertionSort` with the relation "my key is at least yours" is
  the same stable sort.
* Python dicts keep insertion order; `combined_map` is an insertion-ordered
  association list whose entries carry their own key.
-/

/-! ## Rank fusion: `RecommendationService._combine_rankings` -/

/-- A vector-store hit, one dict of `VectorStore.search_recommendations`
output: keys `id`, `score`, `metadata`.  Of the metadata only `title` is
tracked, the single field `_combine_rankings` reads. -/
structure VectorResult where
  id : String
  score : ℚ
  title : String
  deriving DecidableEq, Repr

/-- A graph-derived result dict fed to `_combine_rankings`.  Rows from
`get_related_recommendations` carry a `weight` key; rows from the graph
cluster query instead carry `cluster_score`, so their `weight` key is
absent (`weight = none`).  Python `result.get("weight", 0)` becomes
`weight.getD 0`. -/
structure GraphResult where
  id : String
  title : String
  weight : Option ℚ
  deriving DecidableEq, Repr

/-- An entry of `combined_map` before final scores are assigned. -/
structure CombinedEntry where
  id : String
  title : String
  vector_score : ℚ
  graph_score : ℚ
  deriving DecidableEq, Repr

/-- A fused result after `final_score` is filled in. -/
structure RankedResult where
  id : String
  title : String
  vector_score : ℚ
  graph_score : ℚ
  final_score : ℚ
  deriving DecidableEq, Repr

/-- Python membership test `result["id"] in combined_map`. -/
def hasKey (m : List CombinedEntry) (i : String) : Bool :=
  m.any fun e => e.id == i

/-- Python dict assignment `combined_map[id] = entry`: overwrite in place
when the key exists (keeping its position), append otherwise. -/
def dictSet (m : List CombinedEntry) (e : CombinedEntry) : List CombinedEntry :=
  if hasKey m e.id then m.map fun x => if x.id == e.id then e else x
  else m ++ [e]

/-- Python assignment `combined_map[id]["graph_score"] = w` for an existing key. -/
def setGraphScore (m : List CombinedEntry) (i : String) (w : ℚ) : List CombinedEntry :=
  m.map fun x => if x.id == i then { x with graph_score := w } else x

/-- First loop of `_combine_rankings`: every vector hit seeds an entry with
its score and `graph_score = 0.0`. -/
def processVector (m : List CombinedEntry) (vrs : List VectorResult) : List CombinedEntry :=
  vrs.foldl (fun m r => dictSet m ⟨r.id, r.title, r.score, 0⟩) m

/-- Second loop of `_combine_rankings`: a graph row either sets the
`graph_score` of an existing entry or appends a graph-only entry with
`vector_score = 0.0`; in both cases the score read is `get("weight", 0)`. -/
def processGraph (m : List CombinedEntry) (grs : List GraphResult) : List CombinedEntry :=
  grs.foldl
    (fun m r =>
      if hasKey m r.id then setGraphScore m r.id (r.weight.getD 0)
      else m ++ [⟨r.id, r.title, 0, r.weight.getD 0⟩])
    m

/-- The values of `combined_map` after both loops, in insertion order. -/
def combinedEntries (vrs : List VectorResult) (grs : List GraphResult) : List CombinedEntry :=
  processGraph (processVector [] vrs) grs

/-- Python assignment `result["final_score"] = vector_score * 0.7 + graph_score * 0.3`. -/
def withFinalScore (e : CombinedEntry) : RankedResult :=
  ⟨e.id, e.title, e.vector_score, e.graph_score, e.vector_score * 0.7 + e.graph_score * 0.3⟩

/-- The `results` list right before the sort. -/
def rankedEntries (vrs : List VectorResult) (grs : List GraphResult) : List RankedResult :=
  (combinedEntries vrs grs).map withFinalScore

/-- Sort relation of `sorted(results, key=lambda x: x["final_score"],
reverse=True)`. -/
def byFinalScoreDesc : RankedResult → RankedResult → Prop :=
  fun a b => b.final_score ≤ a.final_score

instance : DecidableRel byFinalScoreDesc :=
  fun a b => inferInstanceAs (Decidable (b.final_score ≤ a.final_score))

instance : IsTotal RankedResult byFinalScoreDesc :=
  ⟨fun a b => (le_total b.final_score a.final_score)⟩

instance : IsTrans RankedResult byFinalScoreDesc :=
  ⟨fun _ _ _ h1 h2 => le_trans h2 h1⟩

/-- Model of `RecommendationService._combine_rankings` (the `context` argument is
unused by the source). -/
def combine_rankings (vrs : List VectorResult) (grs : List GraphResult) : List RankedResult :=
  (rankedEntries vrs grs).insertionSort byFinalScoreDesc

/-- Spec worked example, vector leg: hits A:0.9 and B:0.4. -/
def fusionExampleVec : List VectorResult :=
  [⟨"A", 0.9, "A"⟩, ⟨"B", 0.4, "B"⟩]

/-- Spec worked example, graph leg: neighbors B:0.8 and C:0.6 (rows of
`get_related_recommendations`, so the `weight` key is present). -/
def fusionExampleGraph : List GraphResult :=
  [⟨"B", "B", some 0.8⟩, ⟨"C", "C", some 0.6⟩]

/-- Two vector hits with equal scores, in descending-id input order. -/
def tieExampleVec : List VectorResult :=
  [⟨"b", 0.5, "b"⟩, ⟨"a", 0.5, "a"⟩]

/-! ## Relationship graph state -/

/-- A directed `RELATES_TO` edge with its `type` and `weight` properties. -/
structure GEdge where
  src : String
  tgt : String
  typ : String
  weight : ℚ
  deriving DecidableEq, Repr

/-- Edge lookup by position in the edge list (edge identity). -/
def edgeAt (g : List GEdge) (i : Nat) : GEdge :=
  g.getD i ⟨"", "", "", 0⟩

/-! ## Cluster discovery: `GraphStore.get_recommendation_cluster`

The Cypher query matches every path of 1 to `max_depth` `RELATES_TO` hops
out of the root (relationships pairwise distinct within a path, per Cypher
relationship uniqueness), keeps those on which every edge weight is at
least `min_weight`, returns one row per matched path whose `cluster_score`
is the product of the path's edge weights, and orders rows by
`cluster_score` descending. -/

/-- All chained outbound paths of length 1..`d` starting at `node`, as lists
of edge indices, avoiding the indices in `used` (Cypher never repeats a
relationship within one path). -/
def clusterPaths (g : List GEdge) : Nat → String → List Nat → List (List Nat)
  | 0, _, _ => []
  | d + 1, node, used =>
    ((List.range g.length).filter
        (fun i => decide (i ∉ used) && decide ((edgeAt g i).src = node))).flatMap
      fun i =>
        [i] :: (clusterPaths g d (edgeAt g i).tgt (i :: used)).map fun p => i :: p

/-- The edge weights along a path. -/
def pathWeights (g : List GEdge) (p : List Nat) : List ℚ :=
  p.map fun i => (edgeAt g i).weight

/-- Cypher `reduce(weight = 1.0, rel in r | weight * rel.weight)`. -/
def pathScore (g : List GEdge) (p : List Nat) : ℚ :=
  (pathWeights g p).foldl (· * ·) 1

/-- The node a path ends at (`related`). -/
def pathTarget (g : List GEdge) (root : String) (p : List Nat) : String :=
  match p.getLast? with
  | some i => (edgeAt g i).tgt
  | none => root

/-- Cypher `ALL(rel in r WHERE rel.weight >= $min_weight)`. -/
def admissibleB (g : List GEdge) (minWeight : ℚ) (p : List Nat) : Bool :=
  (pathWeights g p).all fun w => decide (minWeight ≤ w)

/-- A path the Cypher pattern admits: nonempty, at most `maxDepth` hops,
pairwise-distinct edges chained out of `root`, every weight at least
`minWeight`. -/
def chainedFrom (g : List GEdge) : String → List Nat → Prop
  | _, [] => True
  | node, i :: p =>
    i < g.length ∧ (edgeAt g i).src = node ∧ chainedFrom g (edgeAt g i).tgt p

instance chainedFrom.instDecidable (g : List GEdge) :
    (node : String) → (p : List Nat) → Decidable (chainedFrom g node p)
  | _, [] => isTrue trivial
  | node, i :: p =>
    haveI := chainedFrom.instDecidable g (edgeAt g i).tgt p
    inferInstanceAs (Decidable (i < g.length ∧ (edgeAt g i).src = node ∧
      chainedFrom g (edgeAt g i).tgt p))

def IsAdmissiblePath (g : List GEdge) (root : String) (minWeight : ℚ)
    (maxDepth : Nat) (p : List Nat) : Prop :=
  p ≠ [] ∧ p.length ≤ maxDepth ∧ p.Nodup ∧ chainedFrom g root p ∧
    ∀ w ∈ pathWeights g p, minWeight ≤ w

/-- Sort relation of `ORDER BY cluster_score DESC`. -/
def clusterRel : (String × ℚ) → (String × ℚ) → Prop :=
  fun a b => b.2 ≤ a.2

instance : DecidableRel clusterRel :=
  fun a b => inferInstanceAs (Decidable (b.2 ≤ a.2))

instance : IsTotal (String × ℚ) clusterRel :=
  ⟨fun a b => (le_total b.2 a.2)⟩

instance : IsTrans (String × ℚ) clusterRel :=
  ⟨fun _ _ _ h1 h2 => le_trans h2 h1⟩

/-- Model of `GraphStore.get_recommendation_cluster`: one `(id, cluster_score)` row
per admissible path, ordered by score descending. -/
def GraphStore.get_recommendation_cluster (g : List GEdge) (root : String)
    (min_weight : ℚ) (max_depth : Nat) : List (String × ℚ) :=
  (((clusterPaths g max_depth root []).filter (admissibleB g min_weight)).map
      fun p => (pathTarget g root p, pathScore g p)).insertionSort clusterRel

/-- Spec pruning example: a chain with weights 0.9 then 0.4. -/
def pruneExampleGraph : List GEdge :=
  [⟨"root", "a", "related", 0.9⟩, ⟨"a", "b", "related", 0.4⟩]

/-- Spec scoring example: a chain with weights 0.9 then 0.8. -/
def scoreExampleGraph : List GEdge :=
  [⟨"root", "a", "related", 0.9⟩, ⟨"a", "c", "related", 0.8⟩]

/-- Two admissible two-hop paths both ending at node c. -/
def multiPathGraph : List GEdge :=
  [⟨"root", "a", "related", 0.9⟩, ⟨"root", "b", "related", 0.8⟩,
   ⟨"a", "c", "related", 0.9⟩, ⟨"b", "c", "related", 0.8⟩]

/-- Model of `RecommendationService.get_recommendation_cluster`.  The wrapper
first calls `search_recommendations(recommendation_id, limit=1)`, passing
the string id where a query vector is expected; that reply is the oracle
`vector_result` (the misuse makes the search fail and reply `[]` in
practice, but any reply is covered).  On an empty reply the wrapper
returns `[]` early.  On a nonempty reply it reads
`vector_result[0]["embedding"]` — but `search_recommendations` rows carry
only the keys `id`, `score` and `metadata`, so this read raises `KeyError`,
which the wrapper's handler converts to `[]`.  Either way the graph-cluster
fetch and the `_combine_rankings` fusion below that line are unreachable,
and the call returns the empty list. -/
def RecommendationService.get_recommendation_cluster
    (vector_result : List VectorResult) : List RankedResult :=
  match vector_result with
  | [] => []
  | _ :: _ => []

/-! ## Neighbor lookup and feedback reinforcement -/

/-- Model of `GraphStore.get_related_recommendations`: direct outbound neighbors,
optionally filtered by relationship type, ordered by edge weight
descending, limited; one row per edge, carrying `(related.id, r.weight)`. -/
def GraphStore.get_related_recommendations (g : List GEdge) (i : String)
    (rtype : Option String) (limit : Nat) : List (String × ℚ) :=
  (((g.filter fun e =>
        decide (e.src = i) &&
          match rtype with
          | none => true
          | some t => decide (e.typ = t)).insertionSort
      (fun a b => b.weight ≤ a.weight)).map fun e => (e.tgt, e.weight)).take limit

instance : DecidableRel (fun a b : GEdge => b.weight ≤ a.weight) :=
  fun a b => inferInstanceAs (Decidable (b.weight ≤ a.weight))

/-- Model of `GraphStore.update_relationship_weight`: the Cypher `SET` adds
`weight_change` to every `RELATES_TO` edge from `source_id` to
`target_id`, with no clamping. -/
def GraphStore.update_relationship_weight (g : List GEdge) (src tgt : String)
    (weight_change : ℚ) : List GEdge :=
  g.map fun e =>
    if e.src = src ∧ e.tgt = tgt then { e with weight := e.weight + weight_change }
    else e

/-- The slice of a Qdrant payload touched by
`update_recommendation_feedback`: keys `last_feedback`,
`implementation_count`, `user_feedback`. -/
structure Payload where
  implementation_count : Option Nat
  user_feedback : Option (Option String)
  last_feedback : Option String
  deriving DecidableEq, Repr

/-- Model of `VectorStore.update_metadata` applied to the `metadata_update` dict the
feedback path builds: `set_payload` merges these three keys into the
stored payload, writing the literal counter value 1.  `now` is the
caller's clock reading. -/
def VectorStore.update_feedback_metadata (ok : Bool) (now : String)
    (feedback : Option String) (p : Payload) : Bool × Payload :=
  if ok then (true, ⟨some 1, some feedback, some now⟩) else (false, p)

/-- Model of `RecommendationService.update_recommendation_feedback`.  `vecOk` is the
outcome of the metadata write; `updOks k` the outcome of the k-th
edge-weight update (a failed update leaves the graph unchanged; its
Boolean result is discarded by the source).  When `is_implemented`, the
direct neighbors (default limit 5) are fetched once and each named target
gets `+0.1` from the source; the returned status is the metadata write's
alone. -/
def RecommendationService.update_recommendation_feedback (vecOk : Bool)
    (updOks : Nat → Bool) (now : String) (feedback : Option String)
    (p : Payload) (g : List GEdge) (i : String) (is_implemented : Bool) :
    Bool × Payload × List GEdge :=
  let vr := VectorStore.update_feedback_metadata vecOk now feedback p
  let g1 :=
    if is_implemented then
      (GraphStore.get_related_recommendations g i none 5).enum.foldl
        (fun acc kr =>
          if updOks kr.1 then
            GraphStore.update_relationship_weight acc i kr.2.1 0.1
          else acc)
        g
    else g
  (vr.1, vr.2, g1)

/-- Iterated feedback calls (all metadata writes succeeding), threading
payload and graph. -/
def RecommendationService.iterate_feedback (updOks : Nat → Bool) (now : String)
    (feedback : Option String) (i : String) (is_implemented : Bool) :
    Nat → Payload × List GEdge → Payload × List GEdge
  | 0, s => s
  | n + 1, s =>
    let r := RecommendationService.update_recommendation_feedback true updOks
      now feedback s.1 s.2 i is_implemented
    RecommendationService.iterate_feedback updOks now feedback i
      is_implemented n r.2

/-- Neighbors of r at weights 0.95 and 0.5: reinforcement pushes 0.95 past
the intended upper bound. -/
def feedbackBugGraph : List GEdge :=
  [⟨"r", "n2", "related", 0.95⟩, ⟨"r", "n1", "related", 0.5⟩]

/-! ## Ingestion saga: `IngestionService` and
`RecommendationService.create_recommendation`

`Stores` is the joint persistent state: the set of ids in the vector
index, the multiset of graph node ids (Neo4j `CREATE` is unconditional, so
repeated creation duplicates nodes), and the relationship edges. -/

structure Stores where
  vec : List String
  graph : List String
  edges : List GEdge
  deriving DecidableEq, Repr

/-- Model of `VectorStore.store_recommendation`: Qdrant upsert keyed by id. -/
def VectorStore.store_recommendation (ok : Bool) (i : String) (s : Stores) :
    Bool × Stores :=
  if ok then (true, { s with vec := if i ∈ s.vec then s.vec else s.vec ++ [i] })
  else (false, s)

/-- Model of `VectorStore.delete_recommendation`. -/
def VectorStore.delete_recommendation (ok : Bool) (i : String) (s : Stores) :
    Bool × Stores :=
  if ok then (true, { s with vec := s.vec.filter fun x => decide (x ≠ i) })
  else (false, s)

/-- Model of `VectorStore.batch_store_recommendations`: one upsert call covering all
items; all-or-nothing. -/
def VectorStore.batch_store_recommendations (ok : Bool) (ids : List String)
    (s : Stores) : Bool × Stores :=
  if ok then
    (true, { s with vec := ids.foldl (fun v i => if i ∈ v then v else v ++ [i]) s.vec })
  else (false, s)

/-- Model of `GraphStore.create_recommendation_node`: an unconditional Cypher
`CREATE` (not an upsert). -/
def GraphStore.create_recommendation_node (ok : Bool) (i : String) (s : Stores) :
    Bool × Stores :=
  if ok then (true, { s with graph := s.graph ++ [i] }) else (false, s)

/-- Model of `GraphStore.delete_recommendation`: `DETACH DELETE` of every node with
this id and its incident edges. -/
def GraphStore.delete_recommendation (ok : Bool) (i : String) (s : Stores) :
    Bool × Stores :=
  if ok then
    (true,
      { s with
        graph := s.graph.filter fun x => decide (x ≠ i)
        edges := s.edges.filter fun e => decide (e.src ≠ i) && decide (e.tgt ≠ i) })
  else (false, s)

/-- Model of `GraphStore.create_relationship`: `MATCH` both nodes, then `CREATE` the
edge.  When either node is missing the query matches nothing and still
succeeds, so the Boolean result is `ok` regardless (duplicate nodes would
multiply the created edges; one edge per call is recorded here). -/
def GraphStore.create_relationship (ok : Bool) (src tgt typ : String) (w : ℚ)
    (s : Stores) : Bool × Stores :=
  if ok && s.graph.contains src && s.graph.contains tgt then
    (true, { s with edges := s.edges ++ [⟨src, tgt, typ, w⟩] })
  else (ok, s)

/-- A relationship request: `target_id`, `type`, `weight` (the source
defaults a missing weight to 1.0 before this point). -/
structure RelSpec where
  target_id : String
  typ : String
  weight : ℚ
  deriving DecidableEq, Repr

/-- The `for rel in relationships` loop shared by the ingestion paths:
create each requested edge best-effort, discarding the Boolean results.
`okf k` is the outcome of the k-th edge creation. -/
def GraphStore.createRelationshipsFold (okf : Nat → Bool) (src : String)
    (l : List (Nat × RelSpec)) (st : Stores) : Stores :=
  l.foldl
    (fun a kr =>
      (GraphStore.create_relationship (okf kr.1) src kr.2.target_id kr.2.typ
        kr.2.weight a).2)
    st

/-- Outcomes of the external calls one single-item ingestion makes. -/
structure IngestEnv where
  embedOk : Bool
  vectorOk : Bool
  graphOk : Bool
  deleteOk : Bool
  relOks : Nat → Bool

/-- Model of `IngestionService.ingest_recommendation`: embed, vector upsert, graph
node create; on node-create failure the vector write is compensated by a
delete whose own result is discarded; relationship creation is
best-effort. -/
def IngestionService.ingest_recommendation (env : IngestEnv) (i : String)
    (rels : List RelSpec) (s : Stores) : Option String × Stores :=
  if env.embedOk = false then (none, s)
  else
    let v := VectorStore.store_recommendation env.vectorOk i s
    if v.1 = false then (none, v.2)
    else
      let gn := GraphStore.create_recommendation_node env.graphOk i v.2
      if gn.1 = false then
        let d := VectorStore.delete_recommendation env.deleteOk i gn.2
        (none, d.2)
      else
        (some i, GraphStore.createRelationshipsFold env.relOks i rels.enum gn.2)

/-- Model of `RecommendationService.create_recommendation`: vector write then graph
node create, no compensation; the id (a fresh uuid in the source) is
returned only when both writes succeed. -/
def RecommendationService.create_recommendation (vecOk graphOk : Bool)
    (i : String) (s : Stores) : Option String × Stores :=
  let v := VectorStore.store_recommendation vecOk i s
  let gn := GraphStore.create_recommendation_node graphOk i v.2
  if v.1 && gn.1 then (some i, gn.2) else (none, gn.2)

/-- Outcomes of the external calls one batch ingestion makes. -/
structure BatchEnv where
  embedOk : Bool
  batchVectorOk : Bool
  graphOkFor : String → Bool
  relOkFor : String → Nat → Bool

/-- Per-item loop body of `ingest_recommendations`: create the node; on
success record the id and create the item's relationships best-effort. -/
def IngestionService.batchStep (env : BatchEnv) (acc : List String × Stores)
    (it : String × List RelSpec) : List String × Stores :=
  let gn := GraphStore.create_recommendation_node (env.graphOkFor it.1) it.1 acc.2
  if gn.1 then
    (acc.1 ++ [it.1],
      GraphStore.createRelationshipsFold (env.relOkFor it.1) it.1 it.2.enum gn.2)
  else (acc.1, gn.2)

/-- Model of `IngestionService.ingest_recommendations`: batch embeddings
(all-or-nothing), one batch vector upsert, then the per-item node loop;
returns the ids whose node creation succeeded. -/
def IngestionService.ingest_recommendations (env : BatchEnv)
    (items : List (String × List RelSpec)) (s : Stores) : List String × Stores :=
  if env.embedOk = false then ([], s)
  else
    let v := VectorStore.batch_store_recommendations env.batchVectorOk
      (items.map Prod.fst) s
    if v.1 = false then ([], v.2)
    else items.foldl (IngestionService.batchStep env) ([], v.2)

/-! ## Update path: `IngestionService.update_recommendation` -/

/-- The optional fields an update request may carry. -/
structure UpdateFields where
  title : Option String
  content : Option String
  cat : Option String
  tags : Option (List String)
  deriving DecidableEq, Repr

/-- The slice of a stored vector point `update_recommendation` touches. -/
structure VecDoc where
  title : Option String
  cat : Option String
  tags : Option (List String)
  reembedded : Bool
  deriving DecidableEq, Repr

/-- Upsert with a fresh embedding: the payload is replaced by
`metadata_updates` (exactly the fields present in the request). -/
def VectorStore.store_recommendation_doc (ok : Bool) (u : UpdateFields)
    (d : VecDoc) : Bool × VecDoc :=
  if ok then (true, ⟨u.title, u.cat, u.tags, true⟩) else (false, d)

/-- Qdrant `set_payload` merge of `metadata_updates`: present fields overwrite,
absent fields are kept. -/
def VectorStore.update_metadata_doc (ok : Bool) (u : UpdateFields)
    (d : VecDoc) : Bool × VecDoc :=
  if ok then
    (true,
      ⟨match u.title with | some t => some t | none => d.title,
       match u.cat with | some c => some c | none => d.cat,
       match u.tags with | some t => some t | none => d.tags,
       d.reembedded⟩)
  else (false, d)

/-- Model of `IngestionService.update_recommendation`.  Only the embedding call can
raise (making the handler return `false`); both vector-store writes
return Booleans the source never reads, and the best-effort relationship
creation (graph-only, never raising) is omitted from this state slice. -/
def IngestionService.update_recommendation (embedOk storeOk metaOk : Bool)
    (u : UpdateFields) (regenerate_embedding : Bool) (d : VecDoc) :
    Bool × VecDoc :=
  if regenerate_embedding && (u.title.isSome || u.content.isSome) then
    if embedOk = false then (false, d)
    else
      let r := VectorStore.store_recommendation_doc storeOk u d
      (true, r.2)
  else
    let r := VectorStore.update_metadata_doc metaOk u d
    (true, r.2)

/-! ## Theorems -/

/-! ### Fusion: shape of the entries -/

theorem mem_combine_rankings {vrs : List VectorResult} {grs : List GraphResult}
    {e : RankedResult} :
    e ∈ combine_rankings vrs grs ↔ e ∈ rankedEntries vrs grs := by
  unfold combine_rankings
  exact List.mem_insertionSort byFinalScoreDesc

/-- C3: in every fused result list, each entry's final score is 0.7 times its
vector score plus 0.3 times its graph score (an item missing from one leg
contributes 0 for that leg by construction of the combined map); on the
spec's worked example — vector hits A:0.9, B:0.4 and graph neighbors B:0.8,
C:0.6 — the output is exactly A:0.63, B:0.52, C:0.18 in that order. -/
theorem fusion_final_score_formula :
    (∀ (vrs : List VectorResult) (grs : List GraphResult),
      ∀ e ∈ combine_rankings vrs grs,
        e.final_score = 0.7 * e.vector_score + 0.3 * e.graph_score) ∧
    combine_rankings fusionExampleVec fusionExampleGraph =
      [⟨"A", "A", 0.9, 0, 0.63⟩, ⟨"B", "B", 0.4, 0.8, 0.52⟩,
       ⟨"C", "C", 0, 0.6, 0.18⟩] := by
  constructor
  · intro vrs grs e he
    rw [mem_combine_rankings, rankedEntries, List.mem_map] at he
    obtain ⟨c, -, rfl⟩ := he
    show c.vector_score * 0.7 + c.graph_score * 0.3 =
      0.7 * c.vector_score + 0.3 * c.graph_score
    ring
  · simp [combine_rankings, rankedEntries, combinedEntries, processVector,
      processGraph, dictSet, setGraphScore, hasKey, withFinalScore,
      byFinalScoreDesc, fusionExampleVec, fusionExampleGraph,
      List.insertionSort, List.orderedInsert]
    norm_num [byFinalScoreDesc]

theorem fusion_final_score_formula_witness :
    (⟨"A", "A", 0.9, 0, 0.63⟩ : RankedResult).final_score =
      0.7 * (⟨"A", "A", 0.9, 0, 0.63⟩ : RankedResult).vector_score +
        0.3 * (⟨"A", "A", 0.9, 0, 0.63⟩ : RankedResult).graph_score :=
  fusion_final_score_formula.1 fusionExampleVec fusionExampleGraph _
    (by rw [fusion_final_score_formula.2]; simp)

/-- C7 counterexample: two vector hits with equal scores, given in the order
b then a, fuse to equal final scores yet come out in the order b, a — not
ordered by id ascending ("a" sorts before "b"). -/
theorem fusion_tie_keeps_input_order :
    (combine_rankings tieExampleVec []).map RankedResult.id = ["b", "a"] ∧
    (combine_rankings tieExampleVec []).map RankedResult.final_score =
      [0.35, 0.35] ∧
    ("a" : String) < "b" := by
  refine ⟨?_, ?_, ?_⟩
  · simp [combine_rankings, rankedEntries, combinedEntries, processVector,
      processGraph, dictSet, setGraphScore, hasKey, withFinalScore,
      byFinalScoreDesc, tieExampleVec, List.insertionSort, List.orderedInsert]
  · simp [combine_rankings, rankedEntries, combinedEntries, processVector,
      processGraph, dictSet, setGraphScore, hasKey, withFinalScore,
      byFinalScoreDesc, tieExampleVec, List.insertionSort, List.orderedInsert]
    norm_num
  · rw [String.lt_iff_toList_lt]
    decide

/-- C7 (amended): fused results are sorted descending by final score, are a
permutation of the combined-map entries, and the sort is stable — a pair of
entries whose relative order is compatible with descending final scores
(in particular any tie) keeps its combined-map insertion order (vector hits
in input order, then graph-only rows); ties are not reordered by id. -/
theorem combine_rankings_stable_sort :
    ∀ (vrs : List VectorResult) (grs : List GraphResult),
      (combine_rankings vrs grs).Sorted byFinalScoreDesc ∧
      List.Perm (combine_rankings vrs grs) (rankedEntries vrs grs) ∧
      ∀ a b : RankedResult, b.final_score ≤ a.final_score →
        List.Sublist [a, b] (rankedEntries vrs grs) →
        List.Sublist [a, b] (combine_rankings vrs grs) := by
  intro vrs grs
  refine ⟨List.sorted_insertionSort byFinalScoreDesc _,
    List.perm_insertionSort byFinalScoreDesc _, ?_⟩
  intro a b hab hsub
  exact List.pair_sublist_insertionSort hab hsub

theorem combine_rankings_stable_sort_witness :
    List.Sublist [⟨"b", "b", 0.5, 0, 0.35⟩, ⟨"a", "a", 0.5, 0, 0.35⟩]
      (combine_rankings tieExampleVec []) := by
  refine (combine_rankings_stable_sort tieExampleVec []).2.2 _ _ (by norm_num) ?_
  have h : rankedEntries tieExampleVec [] =
      [⟨"b", "b", 0.5, 0, 0.35⟩, ⟨"a", "a", 0.5, 0, 0.35⟩] := by
    simp [rankedEntries, combinedEntries, processVector, processGraph, dictSet,
      setGraphScore, hasKey, withFinalScore, tieExampleVec]
    norm_num
  rw [h]

/-! ### Feedback reinforcement -/

/-- C8: when `is_implemented` is false the graph is untouched, and in every
case the returned status is exactly the outcome of the vector-metadata
write, regardless of the edge-weight update outcomes. -/
theorem feedback_frame_and_status :
    ∀ (vecOk : Bool) (updOks : Nat → Bool) (now : String) (fb : Option String)
      (p : Payload) (g : List GEdge) (i : String) (b : Bool),
      (RecommendationService.update_recommendation_feedback vecOk updOks now fb
        p g i false).2.2 = g ∧
      (RecommendationService.update_recommendation_feedback vecOk updOks now fb
        p g i b).1 = vecOk := by
  intro vecOk updOks now fb p g i b
  cases vecOk <;>
    simp [RecommendationService.update_recommendation_feedback,
      VectorStore.update_feedback_metadata]

/-- C4: the code evaluated at the failing input — neighbors of r at weights
0.95 and 0.5 and `record_feedback(r, is_implemented=true)` — adds the 0.1
reinforcement delta unconditionally, producing weight 1.05, which violates
the intended upper bound of 1.0. -/
theorem feedback_weight_exceeds_bound :
    (RecommendationService.update_recommendation_feedback true (fun _ => true)
        "t0" none ⟨none, none, none⟩ feedbackBugGraph "r" true).2.2 =
      [⟨"r", "n2", "related", 1.05⟩, ⟨"r", "n1", "related", 0.6⟩] ∧
    ¬((1.05 : ℚ) ≤ 1) := by
  constructor
  · simp [RecommendationService.update_recommendation_feedback,
      VectorStore.update_feedback_metadata, GraphStore.get_related_recommendations,
      GraphStore.update_relationship_weight, feedbackBugGraph, List.enum,
      List.enumFrom, List.insertionSort, List.orderedInsert]
    norm_num
    simp
    norm_num
  · norm_num

/-- C10: every feedback call overwrites `implementation_count` with the
literal 1, so after any positive number of calls the stored counter still
reads 1. -/
theorem implementation_count_always_one :
    ∀ (updOks : Nat → Bool) (now : String) (fb : Option String) (i : String)
      (b : Bool) (n : Nat) (p : Payload) (g : List GEdge),
      ((RecommendationService.iterate_feedback updOks now fb i b (n + 1)
        (p, g)).1).implementation_count = some 1 := by
  intro updOks now fb i b n
  induction n with
  | zero =>
    intro p g
    simp [RecommendationService.iterate_feedback,
      RecommendationService.update_recommendation_feedback,
      VectorStore.update_feedback_metadata]
  | succ n ih =>
    intro p g
    show ((RecommendationService.iterate_feedback updOks now fb i b (n + 1)
      (RecommendationService.update_recommendation_feedback true updOks now fb
        p g i b).2).1).implementation_count = some 1
    exact ih _ _

/-! ### Update path -/

/-- C9: the status returned by `update_recommendation` ignores the Boolean
results of the vector-store writes; it is false exactly when the embedding
call (the only step that raises) is triggered and fails. -/
theorem update_status_ignores_write_results :
    ∀ (embedOk storeOk metaOk : Bool) (u : UpdateFields) (regen : Bool)
      (d : VecDoc),
      (IngestionService.update_recommendation embedOk storeOk metaOk u regen
        d).1 =
        (embedOk || !(regen && (u.title.isSome || u.content.isSome))) := by
  intro embedOk storeOk metaOk u regen d
  cases h : (regen && (u.title.isSome || u.content.isSome)) <;>
    cases embedOk <;>
      simp [IngestionService.update_recommendation, h,
        VectorStore.store_recommendation_doc, VectorStore.update_metadata_doc]

/-! ### Ingestion saga -/

theorem create_relationship_vec (ok : Bool) (src tgt typ : String) (w : ℚ)
    (st : Stores) :
    ((GraphStore.create_relationship ok src tgt typ w st).2).vec = st.vec := by
  unfold GraphStore.create_relationship
  split <;> rfl

theorem create_relationship_graph (ok : Bool) (src tgt typ : String) (w : ℚ)
    (st : Stores) :
    ((GraphStore.create_relationship ok src tgt typ w st).2).graph = st.graph := by
  unfold GraphStore.create_relationship
  split <;> rfl

theorem createRelationshipsFold_vec (okf : Nat → Bool) (src : String) :
    ∀ (l : List (Nat × RelSpec)) (st : Stores),
      (GraphStore.createRelationshipsFold okf src l st).vec = st.vec := by
  intro l
  induction l with
  | nil => intro st; rfl
  | cons kr l ih =>
    intro st
    show (GraphStore.createRelationshipsFold okf src l _).vec = st.vec
    rw [ih, create_relationship_vec]

theorem createRelationshipsFold_graph (okf : Nat → Bool) (src : String) :
    ∀ (l : List (Nat × RelSpec)) (st : Stores),
      (GraphStore.createRelationshipsFold okf src l st).graph = st.graph := by
  intro l
  induction l with
  | nil => intro st; rfl
  | cons kr l ih =>
    intro st
    show (GraphStore.createRelationshipsFold okf src l _).graph = st.graph
    rw [ih, create_relationship_graph]

/-- C1 (amended): when the vector write succeeds, the graph-node creation
fails and the compensating delete succeeds, single-item ingestion returns a
failure and leaves the vector index without the id.  (The source discards
the delete's own result, so this holds only when that delete succeeds — see
the counterexample.) -/
theorem ingest_compensation_removes_vector :
    ∀ (relOks : Nat → Bool) (i : String) (rels : List RelSpec) (s : Stores),
      (IngestionService.ingest_recommendation ⟨true, true, false, true, relOks⟩
        i rels s).1 = none ∧
      i ∉ (IngestionService.ingest_recommendation ⟨true, true, false, true,
        relOks⟩ i rels s).2.vec := by
  intro relOks i rels s
  simp [IngestionService.ingest_recommendation, VectorStore.store_recommendation,
    GraphStore.create_recommendation_node, VectorStore.delete_recommendation,
    List.mem_filter]

/-- C1 counterexample: with the same forced failure of graph-node creation
but a failing compensating delete (whose Boolean result the source ignores),
the call still returns a failure yet the id remains in the vector index. -/
theorem ingest_compensation_delete_failure :
    (IngestionService.ingest_recommendation ⟨true, true, false, false,
      fun _ => true⟩ "x" [] ⟨[], [], []⟩).1 = none ∧
    "x" ∈ (IngestionService.ingest_recommendation ⟨true, true, false, false,
      fun _ => true⟩ "x" [] ⟨[], [], []⟩).2.vec := by
  simp [IngestionService.ingest_recommendation, VectorStore.store_recommendation,
    GraphStore.create_recommendation_node, VectorStore.delete_recommendation]

/-! ### Cluster discovery -/

theorem mem_clusterPaths (g : List GEdge) :
    ∀ (d : Nat) (node : String) (used : List Nat) (p : List Nat),
      p ∈ clusterPaths g d node used ↔
        p ≠ [] ∧ p.length ≤ d ∧ p.Nodup ∧ (∀ i ∈ p, i ∉ used) ∧
          chainedFrom g node p := by
  intro d
  induction d with
  | zero =>
    intro node used p
    simp only [clusterPaths, List.not_mem_nil, false_iff]
    rintro ⟨hne, hlen, -⟩
    exact hne (List.eq_nil_of_length_eq_zero (Nat.le_zero.mp hlen))
  | succ d ih =>
    intro node used p
    simp only [clusterPaths, List.mem_flatMap, List.mem_filter, List.mem_range,
      Bool.and_eq_true, decide_eq_true_eq]
    constructor
    · rintro ⟨i, ⟨hilt, hiu, hsrc⟩, hp⟩
      rcases List.mem_cons.mp hp with rfl | hp'
      · refine ⟨by simp, by simp, by simp, ?_, ⟨hilt, hsrc, trivial⟩⟩
        intro j hj
        rw [List.mem_singleton] at hj
        subst hj
        exact hiu
      · rw [List.mem_map] at hp'
        obtain ⟨q, hq, rfl⟩ := hp'
        obtain ⟨hqne, hqlen, hqnd, hqused, hqch⟩ := (ih _ _ q).mp hq
        refine ⟨by simp, by simpa using Nat.succ_le_succ hqlen, ?_, ?_,
          ⟨hilt, hsrc, hqch⟩⟩
        · refine List.nodup_cons.mpr ⟨?_, hqnd⟩
          intro hiq
          exact (hqused i hiq) (List.mem_cons_self i used)
        · intro j hj
          rcases List.mem_cons.mp hj with rfl | hjq
          · exact hiu
          · exact fun hju => (hqused j hjq) (List.mem_cons_of_mem _ hju)
    · rintro ⟨hne, hlen, hnd, hused, hch⟩
      cases p with
      | nil => exact absurd rfl hne
      | cons i q =>
        obtain ⟨hilt, hsrc, hqch⟩ := hch
        refine ⟨i, ⟨hilt, hused i (List.mem_cons_self i q), hsrc⟩, ?_⟩
        cases q with
        | nil => exact List.mem_cons_self _ _
        | cons j r =>
          apply List.mem_cons_of_mem
          rw [List.mem_map]
          refine ⟨j :: r, (ih _ _ _).mpr ⟨by simp, ?_, ?_, ?_, hqch⟩, rfl⟩
          · simpa using Nat.le_of_succ_le_succ hlen
          · exact (List.nodup_cons.mp hnd).2
          · intro k hk hk'
            rcases List.mem_cons.mp hk' with rfl | hku
            · exact (List.nodup_cons.mp hnd).1 hk
            · exact (hused k (List.mem_cons_of_mem _ hk)) hku

/-- C5: a row appears in the graph-store cluster output exactly when there is
an admissible path — nonempty, at most `max_depth` outbound hops, every edge
weight at least `min_weight` (one weaker edge disqualifies the whole path) —
ending at the row's node with the product of its edge weights as the row's
cluster score; on the spec examples, a 0.9-then-0.4 chain at threshold 0.5
keeps only the one-hop node while the two-hop node is excluded entirely, and
a 0.9-then-0.8 chain scores the two-hop node at 0.72. -/
theorem cluster_admissible_paths :
    (∀ (g : List GEdge) (root : String) (minW : ℚ) (maxD : Nat)
      (x : String × ℚ),
        x ∈ GraphStore.get_recommendation_cluster g root minW maxD ↔
          ∃ p, IsAdmissiblePath g root minW maxD p ∧
            pathTarget g root p = x.1 ∧ pathScore g p = x.2) ∧
    GraphStore.get_recommendation_cluster pruneExampleGraph "root" 0.5 2 =
      [("a", 0.9)] ∧
    GraphStore.get_recommendation_cluster scoreExampleGraph "root" 0.5 2 =
      [("a", 0.9), ("c", 0.72)] := by
  refine ⟨?_, ?_, ?_⟩
  · intro g root minW maxD x
    unfold GraphStore.get_recommendation_cluster
    rw [List.mem_insertionSort, List.mem_map]
    constructor
    · rintro ⟨p, hp, rfl⟩
      rw [List.mem_filter] at hp
      obtain ⟨hpc, hadm⟩ := hp
      obtain ⟨hne, hlen, hnd, -, hch⟩ := (mem_clusterPaths g maxD root [] p).mp hpc
      refine ⟨p, ⟨hne, hlen, hnd, hch, ?_⟩, rfl, rfl⟩
      intro w hw
      have := List.all_eq_true.mp hadm w hw
      simpa using this
    · rintro ⟨p, ⟨hne, hlen, hnd, hch, hws⟩, h1, h2⟩
      refine ⟨p, ?_, ?_⟩
      · rw [List.mem_filter]
        refine ⟨(mem_clusterPaths g maxD root [] p).mpr
          ⟨hne, hlen, hnd, by simp, hch⟩, ?_⟩
        rw [admissibleB, List.all_eq_true]
        intro w hw
        simpa using hws w hw
      · cases x
        simp only at h1 h2
        rw [h1, h2]
  · simp [GraphStore.get_recommendation_cluster, clusterPaths, pathWeights,
      pathScore, pathTarget, edgeAt, admissibleB, clusterRel,
      pruneExampleGraph, List.range_succ, List.insertionSort,
      List.orderedInsert]
    norm_num [admissibleB, pathWeights, pathScore, pathTarget, edgeAt,
      clusterRel, List.insertionSort, List.orderedInsert]
  · simp [GraphStore.get_recommendation_cluster, clusterPaths, pathWeights,
      pathScore, pathTarget, edgeAt, admissibleB, clusterRel,
      scoreExampleGraph, List.range_succ, List.insertionSort,
      List.orderedInsert]
    norm_num [admissibleB, pathWeights, pathScore, pathTarget, edgeAt,
      clusterRel, List.insertionSort, List.orderedInsert]

/-- C6 counterexample: with two admissible paths into node c (scores 0.81 and
0.64), the graph-store cluster output contains two rows for c rather than a
single max-score entry; and the service-level wrapper never surfaces a
max-score entry either — whether its initial embedding lookup replies
nothing or something, the call returns the empty list (the lookup misuses
the id as a query vector and, on any nonempty reply, the read of the absent
`embedding` key raises), so no cluster entry for c exists at that level at
all. -/
theorem cluster_duplicate_rows :
    (GraphStore.get_recommendation_cluster multiPathGraph "root" 0.5 2).filter
      (fun r => r.1 == "c") = [("c", 0.81), ("c", 0.64)] ∧
    RecommendationService.get_recommendation_cluster [] = [] ∧
    RecommendationService.get_recommendation_cluster [⟨"root", 1, "root"⟩] =
      [] := by
  refine ⟨?_, rfl, rfl⟩
  simp [GraphStore.get_recommendation_cluster, clusterPaths, pathWeights,
    pathScore, pathTarget, edgeAt, admissibleB, clusterRel, multiPathGraph,
    List.range_succ, List.insertionSort, List.orderedInsert]
  norm_num [admissibleB, pathWeights, pathScore, pathTarget, edgeAt,
    clusterRel, List.insertionSort, List.orderedInsert]
  simp

/-- C6 (amended): the graph store emits one row per admissible path, sorted
by cluster score descending — a node reached by several admissible paths
appears once per path (the first of its rows carrying the maximal score),
the number of rows for a node being exactly the number of admissible paths
ending there; there is no canonicalization by id.  The service-level
wrapper never reaches the fusion step: on every reply of its initial
embedding lookup it returns the empty list, so no per-node entry (let alone
a maximal one) is produced at that level. -/
theorem cluster_multiplicity_and_service_score :
    (∀ (g : List GEdge) (root : String) (minW : ℚ) (maxD : Nat),
      (GraphStore.get_recommendation_cluster g root minW maxD).Sorted
        clusterRel) ∧
    (∀ (g : List GEdge) (root : String) (minW : ℚ) (maxD : Nat) (i : String),
      (GraphStore.get_recommendation_cluster g root minW maxD).countP
          (fun r => decide (r.1 = i)) =
        ((clusterPaths g maxD root []).filter (admissibleB g minW)).countP
          (fun p => decide (pathTarget g root p = i))) ∧
    (∀ vector_result : List VectorResult,
      RecommendationService.get_recommendation_cluster vector_result = []) := by
  refine ⟨?_, ?_, ?_⟩
  · intro g root minW maxD
    exact List.sorted_insertionSort clusterRel _
  · intro g root minW maxD i
    unfold GraphStore.get_recommendation_cluster
    rw [(List.perm_insertionSort clusterRel _).countP_eq, List.countP_map]
    rfl
  · intro vector_result
    cases vector_result <;> rfl

theorem create_node_vec (ok : Bool) (i : String) (st : Stores) :
    ((GraphStore.create_recommendation_node ok i st).2).vec = st.vec := by
  unfold GraphStore.create_recommendation_node
  split <;> rfl

theorem create_node_graph_mono (ok : Bool) (i : String) (st : Stores)
    (x : String) (hx : x ∈ st.graph) :
    x ∈ ((GraphStore.create_recommendation_node ok i st).2).graph := by
  unfold GraphStore.create_recommendation_node
  split
  · exact List.mem_append_left _ hx
  · exact hx

theorem batchStep_vec (env : BatchEnv) (acc : List String × Stores)
    (it : String × List RelSpec) :
    ((IngestionService.batchStep env acc it).2).vec = acc.2.vec := by
  simp only [IngestionService.batchStep]
  split
  · rw [createRelationshipsFold_vec, create_node_vec]
  · rw [create_node_vec]

theorem batchStep_invariant (env : BatchEnv) (acc : List String × Stores)
    (it : String × List RelSpec)
    (h1 : ∀ j ∈ acc.1, j ∈ acc.2.vec ∧ j ∈ acc.2.graph)
    (h2 : it.1 ∈ acc.2.vec) :
    ∀ j ∈ (IngestionService.batchStep env acc it).1,
      j ∈ ((IngestionService.batchStep env acc it).2).vec ∧
      j ∈ ((IngestionService.batchStep env acc it).2).graph := by
  intro j hj
  unfold IngestionService.batchStep at hj ⊢
  cases hok : env.graphOkFor it.1 with
  | false =>
    simp only [hok, GraphStore.create_recommendation_node, if_neg,
      Bool.false_eq_true, ite_false] at hj ⊢
    exact h1 j hj
  | true =>
    simp only [hok, GraphStore.create_recommendation_node, ite_true] at hj ⊢
    rw [createRelationshipsFold_vec, createRelationshipsFold_graph]
    rcases List.mem_append.mp hj with h | h
    · exact ⟨(h1 j h).1, List.mem_append_left _ (h1 j h).2⟩
    · rw [List.mem_singleton] at h
      subst h
      exact ⟨h2, List.mem_append_right _ (List.mem_singleton_self _)⟩

theorem foldl_batchStep_invariant (env : BatchEnv) :
    ∀ (items : List (String × List RelSpec)) (acc : List String × Stores),
      (∀ j ∈ acc.1, j ∈ acc.2.vec ∧ j ∈ acc.2.graph) →
      (∀ it ∈ items, it.1 ∈ acc.2.vec) →
      ∀ j ∈ (items.foldl (IngestionService.batchStep env) acc).1,
        j ∈ ((items.foldl (IngestionService.batchStep env) acc).2).vec ∧
        j ∈ ((items.foldl (IngestionService.batchStep env) acc).2).graph := by
  intro items
  induction items with
  | nil => intro acc h1 _; exact h1
  | cons it items ih =>
    intro acc h1 h2
    show ∀ j ∈ (items.foldl _ (IngestionService.batchStep env acc it)).1, _
    refine ih (IngestionService.batchStep env acc it)
      (batchStep_invariant env acc it h1 (h2 it (List.mem_cons_self _ _))) ?_
    intro it' hit'
    rw [batchStep_vec]
    exact h2 it' (List.mem_cons_of_mem _ hit')

theorem mem_foldl_insert :
    ∀ (ids : List String) (v : List String) (x : String),
      (x ∈ ids ∨ x ∈ v) →
      x ∈ ids.foldl (fun v i => if i ∈ v then v else v ++ [i]) v := by
  intro ids
  induction ids with
  | nil =>
    intro v x h
    rcases h with h | h
    · exact absurd h (List.not_mem_nil x)
    · exact h
  | cons a ids ih =>
    intro v x h
    show x ∈ ids.foldl _ (if a ∈ v then v else v ++ [a])
    apply ih
    rcases h with h | h
    · rcases List.mem_cons.mp h with rfl | h
      · right
        by_cases hv : x ∈ v
        · rw [if_pos hv]; exact hv
        · rw [if_neg hv]; exact List.mem_append_right _ (List.mem_singleton_self _)
      · left; exact h
    · right
      by_cases hv : a ∈ v
      · rw [if_pos hv]; exact h
      · rw [if_neg hv]; exact List.mem_append_left _ h

/-- C2 (amended): single-item ingestion started on a state not containing the
id maintains the both-or-neither invariant provided the compensating delete
succeeds; for batch ingestion every id in the returned list is present in
both stores; and `create_recommendation` returns an id only when both writes
succeeded, in which case the id is in both stores.  However batch ingestion
and `create_recommendation` perform no compensation, so an id whose
graph-node creation fails after a successful vector write is left
vector-only (see the counterexample). -/
theorem creation_presence_duality :
    (∀ (eo vo go : Bool) (relOks : Nat → Bool) (i : String)
      (rels : List RelSpec) (s : Stores), i ∉ s.vec → i ∉ s.graph →
      (((IngestionService.ingest_recommendation ⟨eo, vo, go, true, relOks⟩ i
          rels s).1 = some i →
        i ∈ (IngestionService.ingest_recommendation ⟨eo, vo, go, true, relOks⟩
          i rels s).2.vec ∧
        i ∈ (IngestionService.ingest_recommendation ⟨eo, vo, go, true, relOks⟩
          i rels s).2.graph) ∧
       ((IngestionService.ingest_recommendation ⟨eo, vo, go, true, relOks⟩ i
          rels s).1 = none →
        i ∉ (IngestionService.ingest_recommendation ⟨eo, vo, go, true, relOks⟩
          i rels s).2.vec ∧
        i ∉ (IngestionService.ingest_recommendation ⟨eo, vo, go, true, relOks⟩
          i rels s).2.graph))) ∧
    (∀ (env : BatchEnv) (items : List (String × List RelSpec)) (s : Stores)
      (i : String),
      i ∈ (IngestionService.ingest_recommendations env items s).1 →
      i ∈ ((IngestionService.ingest_recommendations env items s).2).vec ∧
      i ∈ ((IngestionService.ingest_recommendations env items s).2).graph) ∧
    (∀ (vecOk graphOk : Bool) (i : String) (s : Stores),
      (RecommendationService.create_recommendation vecOk graphOk i s).1 =
        some i →
      i ∈ (RecommendationService.create_recommendation vecOk graphOk i
        s).2.vec ∧
      i ∈ (RecommendationService.create_recommendation vecOk graphOk i
        s).2.graph) := by
  refine ⟨?_, ?_, ?_⟩
  · intro eo vo go relOks i rels s hv hg
    cases eo with
    | false => simp [IngestionService.ingest_recommendation, hv, hg]
    | true =>
      cases vo with
      | false =>
        simp [IngestionService.ingest_recommendation,
          VectorStore.store_recommendation, hv, hg]
      | true =>
        cases go with
        | false =>
          simp [IngestionService.ingest_recommendation,
            VectorStore.store_recommendation,
            GraphStore.create_recommendation_node,
            VectorStore.delete_recommendation, List.mem_filter, hv, hg]
        | true =>
          simp [IngestionService.ingest_recommendation,
            VectorStore.store_recommendation,
            GraphStore.create_recommendation_node,
            createRelationshipsFold_vec, createRelationshipsFold_graph, hv, hg]
  · intro env items s i hi
    unfold IngestionService.ingest_recommendations at hi ⊢
    cases hemb : env.embedOk with
    | false => simp [hemb] at hi
    | true =>
      cases hbv : env.batchVectorOk with
      | false =>
        simp [hemb, hbv, VectorStore.batch_store_recommendations] at hi
      | true =>
        simp only [hemb, hbv, VectorStore.batch_store_recommendations,
          ite_true, Bool.true_eq_false, ite_false] at hi ⊢
        refine foldl_batchStep_invariant env items _ (by simp) ?_ i hi
        intro it hit
        exact mem_foldl_insert _ _ _ (Or.inl (List.mem_map_of_mem Prod.fst hit))
  · intro vecOk graphOk i s h
    cases vecOk with
    | false =>
      simp [RecommendationService.create_recommendation,
        VectorStore.store_recommendation,
        GraphStore.create_recommendation_node] at h
    | true =>
      cases graphOk with
      | false =>
        simp [RecommendationService.create_recommendation,
          VectorStore.store_recommendation,
          GraphStore.create_recommendation_node] at h
      | true =>
        by_cases hv : i ∈ s.vec <;>
          simp [RecommendationService.create_recommendation,
            VectorStore.store_recommendation,
            GraphStore.create_recommendation_node, hv]

theorem creation_presence_duality_witness :
    "x" ∈ (IngestionService.ingest_recommendation
      ⟨true, true, true, true, fun _ => true⟩ "x" [] ⟨[], [], []⟩).2.vec ∧
    "x" ∈ (IngestionService.ingest_recommendation
      ⟨true, true, true, true, fun _ => true⟩ "x" [] ⟨[], [], []⟩).2.graph :=
  (creation_presence_duality.1 true true true (fun _ => true) "x" []
    ⟨[], [], []⟩ (by simp) (by simp)).1
    (by simp [IngestionService.ingest_recommendation,
      VectorStore.store_recommendation, GraphStore.create_recommendation_node,
      GraphStore.createRelationshipsFold, List.enum])

/-- C2 counterexample: `create_recommendation` with a successful vector write
and a failed graph-node creation returns a failure but leaves the id in the
vector index only — a persisting vector-only state after a completed
creation call. -/
theorem create_recommendation_vector_only :
    (RecommendationService.create_recommendation true false "x"
      ⟨[], [], []⟩).1 = none ∧
    "x" ∈ (RecommendationService.create_recommendation true false "x"
      ⟨[], [], []⟩).2.vec ∧
    "x" ∉ (RecommendationService.create_recommendation true false "x"
      ⟨[], [], []⟩).2.graph := by
  simp [RecommendationService.create_recommendation,
    VectorStore.store_recommendation, GraphStore.create_recommendation_node]
